import Mathlib

set_option autoImplicit false

namespace ReactSearch

/-! Shallow embedding of the search and filter registries of the repository
(src/searchContextFiles/contexts/search.context.tsx, the filter context
module, and their type files). JavaScript objects with string keys are
modelled as insertion ordered association lists; every store built by the
repository operations has pairwise distinct keys, and theorems that rely on
that fact take it as a hypothesis. -/

/-- Type file search.types.ts: the SearchValue interface, a string value or
the explicit absence marker null (modelled as none). -/
structure SearchValue where
  value : Option String
deriving DecidableEq

/-- Type file search.types.ts: one entry of the Search mapping, a query plus
an optional hasUrlSync flag; a flag that is not set is modelled as none. -/
structure SearchEntry where
  query : SearchValue
  hasUrlSync : Option Bool
deriving DecidableEq

/-- Type file filter.types.ts: the FilterValue interface; the payload type is
unknown in the source, so the model is parametric in it. -/
structure FilterValue (A : Type) where
  value : Option A
  category : Option String
deriving DecidableEq

/-- A plain JavaScript object with string keys, as an insertion ordered
association list of key and value pairs. -/
abbrev JsObj (A : Type) : Type := List (String × A)

/-- Property read o[k]: the value at the first pair carrying key k, or
undefined (none) when the key is absent. -/
def jsGet {A : Type} (o : JsObj A) (k : String) : Option A :=
  match o with
  | [] => none
  | (k2, v) :: rest => if k2 = k then some v else jsGet rest k

/-- The expression (k in o); for object valued properties this also models
the truthiness test of o[k]. -/
def jsHas {A : Type} (o : JsObj A) (k : String) : Bool :=
  (jsGet o k).isSome

/-- Property write, and spread override as in the literal that spreads prev
and then sets key k to v: an existing key keeps its position and receives
the new value, a new key is appended at the end. -/
def jsSet {A : Type} (o : JsObj A) (k : String) (v : A) : JsObj A :=
  match o with
  | [] => [(k, v)]
  | (k2, v2) :: rest =>
      if k2 = k then (k, v) :: rest else (k2, v2) :: jsSet rest k v

/-- Spread merge of two objects; on a shared key the second object wins. -/
def jsMerge {A : Type} (o other : JsObj A) : JsObj A :=
  other.foldl (fun acc p => jsSet acc p.1 p.2) o

/-- The delete operator applied to the property named k. -/
def jsDelete {A : Type} (o : JsObj A) (k : String) : JsObj A :=
  o.filter (fun p => p.1 != k)

/-- Object.keys in iteration order. -/
def jsKeys {A : Type} (o : JsObj A) : List String :=
  o.map Prod.fst

/-- Number of keys of the object. -/
def jsSize {A : Type} (o : JsObj A) : Nat :=
  o.length

/-- Type file search.types.ts: the Search mapping from instance ids to
entries. -/
abbrev Search : Type := JsObj SearchEntry

/-- Type file filter.types.ts: the Filters mapping from filter ids to filter
values, parametric in the unknown payload type. -/
abbrev Filters (A : Type) : Type := JsObj (FilterValue A)

/-! Search registry operations, from search.context.tsx. Each state updater
of the provider becomes a pure function from the previous store (and its
other arguments) to the next store. -/

/-- Lines 161 to 169: spreads prev and stores the entry with the given query
and hasUrlSync flag under id. -/
def addSearchInstance (prev : Search) (id : String) (query : SearchValue)
    (hasUrlSync : Bool) : Search :=
  jsSet prev id { query := query, hasUrlSync := some hasUrlSync }

/-- Lines 171 to 176: spreads prev and then the supplied instances. -/
def addSearchInstances (prev : Search) (instances : Search) : Search :=
  jsMerge prev instances

/-- Lines 178 to 189: stores the new query under id; the flag becomes the
previous flag of the entry at id coerced by logical or with false, so a set
flag is kept and a missing entry or missing flag yields false. -/
def updateSearchInstance (prev : Search) (id : String) (query : SearchValue) :
    Search :=
  jsSet prev id
    { query := query
      hasUrlSync := some ((((jsGet prev id).map SearchEntry.hasUrlSync).join).getD false) }

/-- Lines 191 to 196: identical body to addSearchInstances. -/
def updateSearchInstances (prev : Search) (instances : Search) : Search :=
  jsMerge prev instances

/-- Lines 220 to 229: returns undefined when id is absent, else an object
repeating the query and flag of the entry. -/
def getSearchInstance (searchInstances : Search) (id : String) :
    Option SearchEntry :=
  match jsGet searchInstances id with
  | none => none
  | some e => some { query := e.query, hasUrlSync := e.hasUrlSync }

/-- Lines 231 to 242: reduce over the requested ids starting from the empty
object, inserting each instance that exists. -/
def getSearchInstances (searchInstances : Search) (ids : List String) :
    Search :=
  ids.foldl
    (fun acc currId =>
      match getSearchInstance searchInstances currId with
      | some inst => jsSet acc currId inst
      | none => acc)
    []

/-- Lines 244 to 247: the (id in searchInstances) test. -/
def hasSearchInstance (searchInstances : Search) (id : String) : Bool :=
  jsHas searchInstances id

/-- Lines 260 to 268: destructuring removal of the property named id. -/
def removeSearchInstance (prev : Search) (id : String) : Search :=
  jsDelete prev id

/-- Lines 270 to 281: copies prev and deletes every key of the supplied
instances object. -/
def removeSearchInstances (prev : Search) (instances : Search) : Search :=
  (jsKeys instances).foldl (fun updated id => jsDelete updated id) prev

/-- Lines 283 to 285: replaces the store with the empty object. -/
def removeAllSearchInstances (_prev : Search) : Search :=
  []

/-- Lines 287 to 297: spreads prev and stores under id an entry whose query
value is null and which carries no hasUrlSync field, unconditionally. -/
def resetSearchInstance (prev : Search) (id : String) : Search :=
  jsSet prev id { query := { value := none }, hasUrlSync := none }

/-- Lines 299 to 312: for every key of the supplied instances object that
exists in the copy, the query value is set to null in place, which keeps the
hasUrlSync field of the entry. -/
def resetSearchInstances (prev : Search) (instances : Search) : Search :=
  (jsKeys instances).foldl
    (fun updated id =>
      match jsGet updated id with
      | some e => jsSet updated id { query := { value := none }, hasUrlSync := e.hasUrlSync }
      | none => updated)
    prev

/-- Lines 314 to 324: same in place reset applied to every key of the
store. -/
def resetAllSearchInstances (prev : Search) : Search :=
  (jsKeys prev).foldl
    (fun updated id =>
      match jsGet updated id with
      | some e => jsSet updated id { query := { value := none }, hasUrlSync := e.hasUrlSync }
      | none => updated)
    prev

/-- Line 204 and line 215: the expression that chooses the parameter value,
the stored query value coerced by logical or with the empty string, so a
missing entry, a null value and the empty string all give the empty
string. -/
def storedParamValue (searchInstances : Search) (id : String) : String :=
  match jsGet searchInstances id with
  | none => ""
  | some e => e.query.value.getD ""

/-- Lines 198 to 208: the URL bridge for one id. The external parameter set
and the current path are explicit inputs; the result is the list of
navigation requests issued by the call, each a path paired with the

parameter set pushed with it. The source function takes only the id and the
flag: it has no parameter for an explicit value, and the parameter named id
is always set from the stored payload. -/
def updateUrlParam (searchInstances : Search) (urlSearchParams : JsObj String)
    (pathname : String) (id : String) (hasUrlSync : Bool) :
    List (String × JsObj String) :=
  if !hasUrlSync then []
  else
    [(pathname, jsSet urlSearchParams id (storedParamValue searchInstances id))]

/-- Lines 210 to 218: the URL bridge for the whole store; sets a parameter
for every key of the store and issues one navigation request. -/
def updateUrlParams (searchInstances : Search) (urlSearchParams : JsObj String)
    (pathname : String) : List (String × JsObj String) :=
  [(pathname,
    (jsKeys searchInstances).foldl
      (fun currentParams id =>
        jsSet currentParams id (storedParamValue searchInstances id))
      urlSearchParams)]

/-! Filter registry operations, from the filter context module. -/

/-- Filter context, addFilters: spreads prev and then the supplied
filters. -/
def addFilters {A : Type} (prev : Filters A) (filters : Filters A) :
    Filters A :=
  jsMerge prev filters

/-- Filter context, updateFilters: identical body to addFilters. -/
def updateFilters {A : Type} (prev : Filters A) (filters : Filters A) :
    Filters A :=
  jsMerge prev filters

/-- Filter context, removeFilters: copies prev and deletes every listed id;
the try catch around each delete is not modelled because deleting a property
of a fresh plain copy cannot fail. -/
def removeFilters {A : Type} (prev : Filters A) (filterIds : List String) :
    Filters A :=
  filterIds.foldl (fun updated id => jsDelete updated id) prev

/-- Filter context, hasFilters: every listed id must have a value distinct
from undefined. -/
def hasFilters {A : Type} (filters : Filters A) (filterIds : List String) :
    Bool :=
  filterIds.all (fun id => (jsGet filters id).isSome)

/-- Filter context, resetFilters: for every listed id that exists in the
copy, the value field is set to null in place, which keeps the category
field. -/
def resetFilters {A : Type} (prev : Filters A) (filterIds : List String) :
    Filters A :=
  filterIds.foldl
    (fun updated id =>
      match jsGet updated id with
      | some e => jsSet updated id { value := none, category := e.category }
      | none => updated)
    prev

/-- Filter context, resetAllFilters: replaces the store with the empty
object. -/
def resetAllFilters {A : Type} (_prev : Filters A) : Filters A :=
  []

/-! Provider and hook scaffolding. A React context outside any provider
holds its creation default; the hook receives the value the context
currently holds, with undefined modelled as none. -/

/-- Lines 11 to 125 and 127 to 146 of search.context.tsx: the context value
record; the operations are the functions above, so the model carries the
store component. The constant defaultValues of lines 127 to 146 is an inert
record whose store is empty. -/
structure SearchContextValue where
  searchInstances : Search
deriving DecidableEq

/-- Lines 127 to 146: the defaultValues record. -/
def defaultValues : SearchContextValue :=
  { searchInstances := [] }

/-- Lines 148 to 150: createContext receives defaultValues, not undefined,
so outside any provider the context holds some defaultValues. -/
def searchContextCreationDefault : Option SearchContextValue :=
  some defaultValues

/-- Lines 354 to 362: the hook throws exactly when the held value is falsy,
that is undefined. -/
def useSearchContext (context : Option SearchContextValue) :
    Except String SearchContextValue :=
  match context with
  | none => Except.error "useSearchContext must be used within a SearchProvider"
  | some c => Except.ok c

/-- Filter context value record, carrying the store component. -/
structure FilterContextValue (A : Type) where
  filter : Filters A
deriving DecidableEq

/-- Filter context creation: createContext receives undefined, so outside
any provider the context holds none. -/
def filterContextCreationDefault {A : Type} : Option (FilterContextValue A) :=
  none

/-- Filter context, useFilter: throws exactly when the held value is
undefined. -/
def useFilter {A : Type} (context : Option (FilterContextValue A)) :
    Except String (FilterContextValue A) :=
  match context with
  | none => Except.error "useFilter must be used within a FilterProvider"
  | some c => Except.ok c

/-! Basic lemmas about the object model. -/

theorem jsGet_jsSet {A : Type} (o : JsObj A) (k k2 : String) (v : A) :
    jsGet (jsSet o k v) k2 = if k = k2 then some v else jsGet o k2 := by
  induction o with
  | nil => simp [jsGet, jsSet]
  | cons p rest ih =>
      obtain ⟨k3, v3⟩ := p
      by_cases h3 : k3 = k
      · subst h3
        by_cases h2 : k3 = k2 <;> simp [jsGet, jsSet, h2]
      · by_cases h2 : k3 = k2
        · subst h2
          simp [jsGet, jsSet, h3, Ne.symm h3]
        · simp [jsGet, jsSet, h3, h2, ih]

theorem jsGet_jsSet_self {A : Type} (o : JsObj A) (k : String) (v : A) :
    jsGet (jsSet o k v) k = some v := by
  simp [jsGet_jsSet]

theorem jsGet_jsSet_ne {A : Type} (o : JsObj A) (k k2 : String) (v : A)
    (h : k ≠ k2) : jsGet (jsSet o k v) k2 = jsGet o k2 := by
  simp [jsGet_jsSet, h]

theorem jsHas_iff_mem_jsKeys {A : Type} (o : JsObj A) (k : String) :
    jsHas o k = true ↔ k ∈ jsKeys o := by
  induction o with
  | nil => simp [jsHas, jsGet, jsKeys]
  | cons p rest ih =>
      obtain ⟨k2, v2⟩ := p
      by_cases h : k2 = k
      · simp [jsHas, jsGet, jsKeys, h]
      · simpa [jsHas, jsGet, jsKeys, h, Ne.symm h] using ih

theorem jsKeys_jsSet_of_has {A : Type} (o : JsObj A) (k : String) (v : A)
    (h : jsHas o k = true) : jsKeys (jsSet o k v) = jsKeys o := by
  induction o with
  | nil => simp [jsHas, jsGet] at h
  | cons p rest ih =>
      obtain ⟨k2, v2⟩ := p
      by_cases h2 : k2 = k
      · simp [jsSet, jsKeys, h2]
      · have hrest : jsHas rest k = true := by
          simpa [jsHas, jsGet, h2] using h
        simpa [jsSet, jsKeys, h2] using ih hrest

theorem jsSize_eq_length_jsKeys {A : Type} (o : JsObj A) :
    jsSize o = (jsKeys o).length := by
  simp [jsSize, jsKeys]

theorem jsGet_filter_key {A : Type} (o : JsObj A) (f : String → Bool)
    (k : String) :
    jsGet (o.filter (fun p => f p.1)) k
      = if f k = true then jsGet o k else none := by
  induction o with
  | nil => simp [jsGet]
  | cons p rest ih =>
      obtain ⟨k2, v2⟩ := p
      by_cases h2 : k2 = k
      · subst h2
        by_cases hf : f k2 = true <;>
          simp [List.filter_cons, jsGet, hf, ih]
      · by_cases hf : f k2 = true <;>
          simp [List.filter_cons, jsGet, hf, h2, ih]

theorem jsKeys_filter_key {A : Type} (o : JsObj A) (f : String → Bool) :
    jsKeys (o.filter (fun p => f p.1)) = (jsKeys o).filter f := by
  induction o with
  | nil => simp [jsKeys]
  | cons p rest ih =>
      obtain ⟨k2, v2⟩ := p
      by_cases hf : f k2 = true <;>
        simp [List.filter_cons, jsKeys, hf] <;>
        simpa [jsKeys] using ih

theorem length_filter_add_length_filter_not {A : Type} (l : List A)
    (f : A → Bool) :
    (l.filter f).length + (l.filter (fun a => !f a)).length = l.length := by
  induction l with
  | nil => simp
  | cons a rest ih =>
      by_cases hf : f a = true <;>
        simp [List.filter_cons, hf, ih] <;> omega

theorem foldl_jsDelete_eq_filter {A : Type} (ids : List String) (o : JsObj A) :
    ids.foldl (fun updated id => jsDelete updated id) o
      = o.filter (fun p => !(ids.contains p.1)) := by
  induction ids generalizing o with
  | nil => simp
  | cons id rest ih =>
      rw [List.foldl_cons, ih, jsDelete, List.filter_filter]
      congr 1
      funext p
      by_cases h : p.1 = id <;> simp [h]

theorem jsGet_foldl_jsSet_fun {A : Type} (f : String → A) (ids : List String)
    (params : JsObj A) (k : String) :
    jsGet (ids.foldl (fun ps id => jsSet ps id (f id)) params) k
      = if k ∈ ids then some (f k) else jsGet params k := by
  induction ids generalizing params with
  | nil => simp
  | cons id rest ih =>
      rw [List.foldl_cons, ih]
      by_cases hr : k ∈ rest
      · simp [hr, List.mem_cons]
      · by_cases hk : k = id
        · subst hk
          simp [hr, jsGet_jsSet_self]
        · simp [hr, hk, jsGet_jsSet_ne _ _ _ _ (Ne.symm hk)]

theorem jsKeys_foldl_reset {A : Type} (r : A → A)
    (g : JsObj A → String → JsObj A)
    (hg : ∀ (o : JsObj A) (id : String),
      g o id = match jsGet o id with
        | some e => jsSet o id (r e)
        | none => o)
    (ids : List String) (o : JsObj A) :
    jsKeys (ids.foldl g o) = jsKeys o := by
  induction ids generalizing o with
  | nil => simp
  | cons id rest ih =>
      rw [List.foldl_cons, ih]
      rw [hg]
      cases h : jsGet o id with
      | none => simp
      | some e =>
          exact jsKeys_jsSet_of_has o id (r e) (by simp [jsHas, h])

theorem jsGet_foldl_reset_not_mem {A : Type} (r : A → A)
    (g : JsObj A → String → JsObj A)
    (hg : ∀ (o : JsObj A) (id : String),
      g o id = match jsGet o id with
        | some e => jsSet o id (r e)
        | none => o)
    (ids : List String) (o : JsObj A) (k : String) (hk : k ∉ ids) :
    jsGet (ids.foldl g o) k = jsGet o k := by
  induction ids generalizing o with
  | nil => simp
  | cons id rest ih =>
      have hkr : k ∉ rest := fun h => hk (List.mem_cons_of_mem _ h)
      have hki : k ≠ id := fun h => hk (h ▸ List.mem_cons_self _ _)
      rw [List.foldl_cons, ih _ hkr, hg]
      cases h : jsGet o id with
      | none => rfl
      | some e => exact jsGet_jsSet_ne o id k (r e) (Ne.symm hki)

theorem jsGet_foldl_reset_mem {A : Type} (r : A → A)
    (g : JsObj A → String → JsObj A)
    (hg : ∀ (o : JsObj A) (id : String),
      g o id = match jsGet o id with
        | some e => jsSet o id (r e)
        | none => o)
    (ids : List String) (hnd : ids.Nodup) (o : JsObj A) (k : String)
    (hk : k ∈ ids) :
    jsGet (ids.foldl g o) k = (jsGet o k).map r := by
  revert hnd hk
  induction ids generalizing o with
  | nil => intro _ hk; simp at hk
  | cons id rest ih =>
      intro hnd hk
      have hndr : rest.Nodup := hnd.of_cons
      rw [List.foldl_cons]
      by_cases hr : k ∈ rest
      · have hstep : jsGet (g o id) k = jsGet o k := by
          have hki : k ≠ id := by
            rintro rfl
            exact (List.nodup_cons.mp hnd).1 hr
          rw [hg]
          cases h : jsGet o id with
          | none => rfl
          | some e => exact jsGet_jsSet_ne o id k (r e) (Ne.symm hki)
        rw [ih _ hndr hr, hstep]
      · have hki : k = id := by
          rcases List.mem_cons.mp hk with h | h
          · exact h
          · exact absurd h hr
        subst hki
        rw [jsGet_foldl_reset_not_mem r g hg rest _ k hr, hg]
        cases h : jsGet o k with
        | none => simp [h]
        | some e => simp [h, jsGet_jsSet_self]

theorem jsGet_jsMerge {A : Type} (o other : JsObj A)
    (hnd : (jsKeys other).Nodup) (k : String) :
    jsGet (jsMerge o other) k
      = ((jsGet other k).elim (jsGet o k) some) := by
  induction other generalizing o with
  | nil => simp [jsMerge, jsGet]
  | cons p rest ih =>
      obtain ⟨k2, v2⟩ := p
      have hnd2 : (k2 :: jsKeys rest).Nodup := by
        simpa [jsKeys] using hnd
      have hndr : (jsKeys rest).Nodup := (List.nodup_cons.mp hnd2).2
      have hk2 : k2 ∉ jsKeys rest := (List.nodup_cons.mp hnd2).1
      have hstep : jsMerge o ((k2, v2) :: rest) = jsMerge (jsSet o k2 v2) rest := by
        simp [jsMerge]
      rw [hstep, ih _ hndr]
      cases h : jsGet rest k with
      | some v =>
          have hkmem : k ∈ jsKeys rest :=
            (jsHas_iff_mem_jsKeys rest k).mp (by simp [jsHas, h])
          have hk2k : k2 ≠ k := fun he => hk2 (he ▸ hkmem)
          simp [jsGet, h, hk2k]
      | none =>
          by_cases hk2k : k2 = k
          · subst hk2k
            simp [jsGet, h, jsGet_jsSet_self]
          · simp [jsGet, h, hk2k, jsGet_jsSet_ne o k2 k v2 hk2k]

theorem jsHas_eq_contains_jsKeys {A : Type} (o : JsObj A) (k : String) :
    jsHas o k = (jsKeys o).contains k := by
  by_cases h : k ∈ jsKeys o
  · rw [(jsHas_iff_mem_jsKeys o k).mpr h]
    exact (List.elem_eq_true_of_mem h).symm
  · have h1 : jsHas o k = false := by
      cases hb : jsHas o k with
      | false => rfl
      | true => exact absurd ((jsHas_iff_mem_jsKeys o k).mp hb) h
    have h2 : (jsKeys o).contains k = false := by
      cases hb : (jsKeys o).contains k with
      | false => rfl
      | true => exact absurd (List.mem_of_elem_eq_true hb) h
    rw [h1, h2]

theorem getSearchInstance_eq_jsGet (s : Search) (id : String) :
    getSearchInstance s id = jsGet s id := by
  cases h : jsGet s id <;> simp [getSearchInstance, h]

/-- Shared specification of the bulk removal loop used by both registry
variants: it keeps exactly the pairs whose key is not listed, and the size
drops by the number of distinct listed ids that were present. -/
theorem removeBulk_spec {A : Type} (o : JsObj A) (ids : List String)
    (hnd : (jsKeys o).Nodup) :
    (∀ k, jsHas (ids.foldl (fun updated id => jsDelete updated id) o) k
        = (jsHas o k && !(ids.contains k))) ∧
    jsSize (ids.foldl (fun updated id => jsDelete updated id) o)
      = jsSize o - (ids.toFinset.filter (fun k => jsHas o k = true)).card := by
  rw [foldl_jsDelete_eq_filter]
  constructor
  · intro k
    rw [jsHas, jsGet_filter_key o (fun k => !(ids.contains k)) k]
    by_cases hm : k ∈ ids <;> simp [jsHas, hm]
  · have hsplit := length_filter_add_length_filter_not o
      (fun p => ids.contains p.1)
    have hkeys : jsKeys (o.filter (fun p => ids.contains p.1))
        = (jsKeys o).filter (fun k => ids.contains k) :=
      jsKeys_filter_key o (fun k => ids.contains k)
    have hlen1 : (o.filter (fun p => ids.contains p.1)).length
        = ((jsKeys o).filter (fun k => ids.contains k)).length := by
      rw [← hkeys]
      simp [jsKeys]
    have hndf : ((jsKeys o).filter (fun k => ids.contains k)).Nodup :=
      hnd.filter _
    have hfin : ((jsKeys o).filter (fun k => ids.contains k)).toFinset
        = ids.toFinset.filter (fun k => jsHas o k = true) := by
      ext k
      simp only [List.mem_toFinset, List.mem_filter, Finset.mem_filter]
      constructor
      · rintro ⟨hmem, hc⟩
        exact ⟨List.mem_of_elem_eq_true hc,
          (jsHas_iff_mem_jsKeys o k).mpr hmem⟩
      · rintro ⟨hmem, hhas⟩
        exact ⟨(jsHas_iff_mem_jsKeys o k).mp hhas,
          List.elem_eq_true_of_mem hmem⟩
    have hcard : (ids.toFinset.filter (fun k => jsHas o k = true)).card
        = (o.filter (fun p => ids.contains p.1)).length := by
      rw [← hfin, List.toFinset_card_of_nodup hndf, hlen1]
    simp only [jsSize]
    omega

theorem foldl_getStep_of_absent (s : Search) (g : Search → String → Search)
    (hg : ∀ (acc : Search) (id : String),
      g acc id = match getSearchInstance s id with
        | some inst => jsSet acc id inst
        | none => acc)
    (ids : List String) (acc : Search)
    (h : ∀ id, id ∈ ids → jsHas s id = false) :
    ids.foldl g acc = acc := by
  induction ids generalizing acc with
  | nil => rfl
  | cons id rest ih =>
      have hid : jsGet s id = none := by
        have h0 := h id (List.mem_cons_self _ _)
        cases hj : jsGet s id with
        | none => rfl
        | some e =>
            rw [jsHas, hj] at h0
            simp at h0
      have hstep : g acc id = acc := by
        rw [hg, getSearchInstance_eq_jsGet, hid]
      rw [List.foldl_cons, hstep]
      exact ih acc (fun i hi => h i (List.mem_cons_of_mem _ hi))

theorem foldl_getStep_get (s : Search) (g : Search → String → Search)
    (hg : ∀ (acc : Search) (id : String),
      g acc id = match getSearchInstance s id with
        | some inst => jsSet acc id inst
        | none => acc)
    (ids : List String) (acc : Search) (k : String) (v : SearchEntry)
    (h : jsGet (ids.foldl g acc) k = some v) :
    jsGet acc k = some v ∨ (k ∈ ids ∧ jsGet s k = some v) := by
  induction ids generalizing acc with
  | nil => exact Or.inl h
  | cons id rest ih =>
      rw [List.foldl_cons] at h
      rcases ih (g acc id) h with hacc | ⟨hmem, hget⟩
      · rw [hg, getSearchInstance_eq_jsGet] at hacc
        cases hs : jsGet s id with
        | none =>
            rw [hs] at hacc
            exact Or.inl hacc
        | some e =>
            rw [hs] at hacc
            by_cases hk : id = k
            · subst hk
              rw [jsGet_jsSet_self] at hacc
              exact Or.inr ⟨List.mem_cons_self _ _, hs.trans hacc⟩
            · rw [jsGet_jsSet_ne _ _ _ _ hk] at hacc
              exact Or.inl hacc
      · exact Or.inr ⟨List.mem_cons_of_mem _ hmem, hget⟩

/-! Claim theorems. -/

/-- Claim C1, evaluated on the code: outside any provider a context holds
its creation default. The filter context is created with undefined, so
useFilter throws the fixed message naming FilterProvider; but the search
context is created with the inert defaultValues record, so the falsiness
guard of useSearchContext never fires and the hook returns defaultValues
instead of throwing. The claim is right about the intent (the throw with
its message exists in the source but is unreachable) and wrong about the
behaviour, so the code is the defect. -/
theorem C1_hook_outside_provider_eval :
    useSearchContext searchContextCreationDefault = Except.ok defaultValues ∧
    useFilter (A := Nat) filterContextCreationDefault
      = Except.error "useFilter must be used within a FilterProvider" :=
  ⟨rfl, rfl⟩

/-- Claim C2, counterexample: on the empty search store, resetting the
non-existing id a creates the key, so has a is true afterwards while the
claim requires it to remain false. -/
theorem C2_resetOne_counterexample :
    hasSearchInstance (resetSearchInstance ([] : Search) "a") "a" = true := by
  decide

/-- Claim C2 as amended: the filter variant behaves as claimed on a
singleton list (existing id keeps the key, payload becomes the absence
marker with the category kept; missing id is a no-op), but
resetSearchInstance unconditionally writes the entry whose query value is
null under the id, so on a missing id it creates the key instead of being a
no-op; on an existing id the key is kept and the payload reset, and other
keys are untouched. -/
theorem C2_resetOne_amended :
    (∀ (A : Type) (f : Filters A) (id : String),
       (∀ e : FilterValue A, jsGet f id = some e →
          hasFilters (resetFilters f [id]) [id] = true ∧
          jsGet (resetFilters f [id]) id
            = some { value := none, category := e.category }) ∧
       (jsGet f id = none → resetFilters f [id] = f)) ∧
    (∀ (s : Search) (id : String),
       jsGet (resetSearchInstance s id) id
         = some { query := { value := none }, hasUrlSync := none } ∧
       hasSearchInstance (resetSearchInstance s id) id = true ∧
       (∀ k, k ≠ id → jsGet (resetSearchInstance s id) k = jsGet s k)) := by
  constructor
  · intro A f id
    constructor
    · intro e he
      unfold resetFilters
      rw [List.foldl_cons, List.foldl_nil, he]
      constructor
      · simp [hasFilters, jsGet_jsSet_self]
      · exact jsGet_jsSet_self f id _
    · intro he
      unfold resetFilters
      rw [List.foldl_cons, List.foldl_nil, he]
  · intro s id
    refine ⟨jsGet_jsSet_self s id _, ?_, ?_⟩
    · simp [hasSearchInstance, jsHas, resetSearchInstance, jsGet_jsSet_self]
    · intro k hk
      exact jsGet_jsSet_ne s id k _ (Ne.symm hk)

/-- Witness for C2 as amended, at a concrete filter store, a concrete
search store and concrete ids. -/
theorem C2_resetOne_amended_witness :
    jsGet ([("a", ({ value := some 3, category := some "c" } : FilterValue Nat))]) "a"
      = some { value := some 3, category := some "c" } ∧
    jsGet (resetFilters [("a", ({ value := some 3, category := some "c" } : FilterValue Nat))] ["a"]) "a"
      = some { value := none, category := some "c" } ∧
    resetFilters ([] : Filters Nat) ["b"] = [] ∧
    jsGet (resetSearchInstance ([("x", { query := { value := some "q" }, hasUrlSync := some true })] : Search) "x") "x"
      = some { query := { value := none }, hasUrlSync := none } :=
  ⟨rfl,
   ((C2_resetOne_amended.1 Nat
      [("a", { value := some 3, category := some "c" })] "a").1
      { value := some 3, category := some "c" } rfl).2,
   (C2_resetOne_amended.1 Nat ([] : Filters Nat) "b").2 rfl,
   (C2_resetOne_amended.2
      [("x", { query := { value := some "q" }, hasUrlSync := some true })] "x").1⟩

/-- Claim C3, counterexample: resetAllFilters replaces the store with the
empty object, so an existing key is not preserved and the size drops,
against the claim that every key survives with payload reset. -/
theorem C3_resetAll_counterexample :
    jsHas (resetAllFilters [("a", ({ value := some 1, category := none } : FilterValue Nat))]) "a" = false ∧
    jsHas [("a", ({ value := some 1, category := none } : FilterValue Nat))] "a" = true := by
  constructor <;> decide

/-- Claim C3 as amended: the search variant preserves the key set and the
size and resets every payload to the absence marker while keeping the
hasUrlSync field, but resetAllFilters empties the filter store outright. -/
theorem C3_resetAll_amended :
    (∀ (s : Search), (jsKeys s).Nodup →
       jsKeys (resetAllSearchInstances s) = jsKeys s ∧
       jsSize (resetAllSearchInstances s) = jsSize s ∧
       ∀ id e, jsGet s id = some e →
         jsGet (resetAllSearchInstances s) id
           = some { query := { value := none }, hasUrlSync := e.hasUrlSync }) ∧
    (∀ (A : Type) (f : Filters A), resetAllFilters f = []) := by
  constructor
  · intro s hnd
    have hkeys : jsKeys (resetAllSearchInstances s) = jsKeys s := by
      unfold resetAllSearchInstances
      refine jsKeys_foldl_reset
        (fun e => { query := { value := none }, hasUrlSync := e.hasUrlSync })
        _ ?_ (jsKeys s) s
      intro o id
      cases h : jsGet o id <;> simp [h]
    refine ⟨hkeys, ?_, ?_⟩
    · rw [jsSize_eq_length_jsKeys, jsSize_eq_length_jsKeys, hkeys]
    · intro id e he
      have hmem : id ∈ jsKeys s :=
        (jsHas_iff_mem_jsKeys s id).mp (by simp [jsHas, he])
      have hget := jsGet_foldl_reset_mem
        (fun e => ({ query := { value := none }, hasUrlSync := e.hasUrlSync } : SearchEntry))
        (fun (updated : Search) (id : String) =>
          match jsGet updated id with
          | some e => jsSet updated id
              { query := { value := none }, hasUrlSync := e.hasUrlSync }
          | none => updated)
        (by intro o id2; cases h : jsGet o id2 <;> simp [h])
        (jsKeys s) hnd s id hmem
      unfold resetAllSearchInstances
      rw [hget, he]
      rfl
  · intro A f
    rfl

/-- Witness for C3 as amended, at a concrete two entry search store and a
concrete filter store. -/
theorem C3_resetAll_amended_witness :
    ((jsKeys ([("a", { query := { value := some "x" }, hasUrlSync := some true }),
               ("b", { query := { value := none }, hasUrlSync := none })] : Search)).Nodup) ∧
    jsGet (resetAllSearchInstances
        [("a", { query := { value := some "x" }, hasUrlSync := some true }),
         ("b", { query := { value := none }, hasUrlSync := none })]) "a"
      = some { query := { value := none }, hasUrlSync := some true } :=
  ⟨by decide,
   ((C3_resetAll_amended.1
      [("a", { query := { value := some "x" }, hasUrlSync := some true }),
       ("b", { query := { value := none }, hasUrlSync := none })]
      (by decide)).2.2 "a"
      { query := { value := some "x" }, hasUrlSync := some true } rfl)⟩

/-- Claim C4, evaluated on the code: updateUrlParam accepts only the id and
the enabled flag; it has no parameter for an explicit value, while its call
site in the input component passes a third argument meant as the committed
value. At a store whose entry q still holds the absence marker, an enabled
call sets the parameter q to the empty string taken from the stored
payload, not to any explicit value; a disabled call is a no-op. The claim
matches the evident intent of the call site, so the code is the defect. -/
theorem C4_syncOne_eval :
    updateUrlParam
        ([("q", { query := { value := none }, hasUrlSync := some true })] : Search)
        [] "/search" "q" true
      = [("/search", [("q", "")])] ∧
    updateUrlParam
        ([("q", { query := { value := none }, hasUrlSync := some true })] : Search)
        [] "/search" "q" false
      = [] := by
  constructor <;> rfl

/-- Claim C5, counterexample: on an entry that exists but whose hasUrlSync
field is unset (as resetSearchInstance and plain bulk adds can produce),
updateSearchInstance turns the unset field into an explicit false, so the
metadata is not equal to its previous value. -/
theorem C5_update_counterexample :
    ¬ ((jsGet (updateSearchInstance
          [("a", { query := { value := some "x" }, hasUrlSync := none })]
          "a" { value := some "y" }) "a").map SearchEntry.hasUrlSync
        = (jsGet ([("a", { query := { value := some "x" }, hasUrlSync := none })] : Search)
            "a").map SearchEntry.hasUrlSync) := by
  decide

/-- Claim C5 as amended: on an existing id the new flag is the previous
flag with an unset flag coerced to false, so a previously set boolean flag
is preserved and an unset one becomes false; on a new id the entry is
created with flag false; the query becomes exactly the supplied payload and
every other key is unchanged. -/
theorem C5_update_amended :
    ∀ (s : Search) (id : String) (q : SearchValue),
      (∀ e : SearchEntry, jsGet s id = some e →
        jsGet (updateSearchInstance s id q) id
          = some { query := q, hasUrlSync := some (e.hasUrlSync.getD false) }) ∧
      (jsGet s id = none →
        jsGet (updateSearchInstance s id q) id
          = some { query := q, hasUrlSync := some false }) ∧
      (∀ k, k ≠ id → jsGet (updateSearchInstance s id q) k = jsGet s k) := by
  intro s id q
  refine ⟨?_, ?_, ?_⟩
  · intro e he
    unfold updateSearchInstance
    rw [jsGet_jsSet_self]
    simp [he]
  · intro he
    unfold updateSearchInstance
    rw [jsGet_jsSet_self]
    simp [he]
  · intro k hk
    unfold updateSearchInstance
    exact jsGet_jsSet_ne s id k _ (Ne.symm hk)

/-- Witness for C5 as amended, at a concrete store with a set flag and at
the empty store. -/
theorem C5_update_amended_witness :
    jsGet (updateSearchInstance
        ([("a", { query := { value := some "x" }, hasUrlSync := some true })] : Search)
        "a" { value := some "y" }) "a"
      = some { query := { value := some "y" }, hasUrlSync := some true } ∧
    jsGet (updateSearchInstance ([] : Search) "b" { value := none }) "b"
      = some { query := { value := none }, hasUrlSync := some false } :=
  ⟨by
     have h := (C5_update_amended
        [("a", { query := { value := some "x" }, hasUrlSync := some true })]
        "a" { value := some "y" }).1
        { query := { value := some "x" }, hasUrlSync := some true } rfl
     simpa using h,
   (C5_update_amended [] "b" { value := none }).2.1 rfl⟩

/-- Claim C6: updateUrlParams issues exactly one navigation request, to the
current path, and the pushed parameter set carries, for every entry of the
store regardless of its hasUrlSync flag, a parameter named by the id whose
value is the stored payload with the absence marker read as the empty
string. -/
theorem C6_syncAll_conf (s : Search) (params : JsObj String) (path : String) :
    (updateUrlParams s params path).length = 1 ∧
    ∀ nav : String × JsObj String, nav ∈ updateUrlParams s params path →
      nav.1 = path ∧
      ∀ id e, jsGet s id = some e →
        jsGet nav.2 id = some (e.query.value.getD "") := by
  constructor
  · rfl
  · intro nav hnav
    have hnav2 : nav = (path,
        (jsKeys s).foldl
          (fun currentParams id =>
            jsSet currentParams id (storedParamValue s id)) params) := by
      simpa [updateUrlParams] using hnav
    subst hnav2
    refine ⟨rfl, ?_⟩
    intro id e he
    have hmem : id ∈ jsKeys s :=
      (jsHas_iff_mem_jsKeys s id).mp (by simp [jsHas, he])
    rw [jsGet_foldl_jsSet_fun (storedParamValue s) (jsKeys s) params id]
    simp [hmem, storedParamValue, he]

/-- Concrete store for the C6 witness; its single entry has its sync flag
set to false, which updateUrlParams ignores. -/
def c6Store : Search :=
  [("a", { query := { value := some "v" }, hasUrlSync := some false })]

/-- Witness for C6 at a concrete store, parameter set and path. -/
theorem C6_syncAll_conf_witness :
    (updateUrlParams c6Store [] "/p").length = 1 ∧
    jsGet ([("a", "v")] : JsObj String) "a" = some "v" :=
  ⟨(C6_syncAll_conf c6Store [] "/p").1,
   by
     have h := ((C6_syncAll_conf c6Store [] "/p").2 ("/p", [("a", "v")])
        (by decide)).2 "a"
        { query := { value := some "v" }, hasUrlSync := some false } rfl
     simpa using h⟩

/-- Claim C7: bulk removal, in both variants, deletes exactly the listed
keys that are present, treats absent ids as no-ops, and shrinks the size by
exactly the number of distinct listed ids that were present. -/
theorem C7_removeBulk_conf :
    (∀ (s instances : Search), (jsKeys s).Nodup →
       (∀ k, jsHas (removeSearchInstances s instances) k
           = (jsHas s k && !(jsHas instances k))) ∧
       jsSize (removeSearchInstances s instances)
         = jsSize s - ((jsKeys instances).toFinset.filter
             (fun k => jsHas s k = true)).card) ∧
    (∀ (A : Type) (f : Filters A) (ids : List String), (jsKeys f).Nodup →
       (∀ k, jsHas (removeFilters f ids) k
           = (jsHas f k && !(ids.contains k))) ∧
       jsSize (removeFilters f ids)
         = jsSize f - (ids.toFinset.filter (fun k => jsHas f k = true)).card) := by
  constructor
  · intro s instances hnd
    have h := removeBulk_spec s (jsKeys instances) hnd
    constructor
    · intro k
      unfold removeSearchInstances
      rw [jsHas_eq_contains_jsKeys instances k]
      exact h.1 k
    · exact h.2
  · intro A f ids hnd
    have h := removeBulk_spec f ids hnd
    exact ⟨h.1, h.2⟩

/-- Concrete stores for the C7 witness. -/
def c7SStore : Search :=
  [("a", { query := { value := some "x" }, hasUrlSync := some true }),
   ("b", { query := { value := none }, hasUrlSync := none })]

/-- Concrete removal argument for the C7 witness: one listed id is present
and one is absent. -/
def c7SInstances : Search :=
  [("a", { query := { value := none }, hasUrlSync := none }),
   ("c", { query := { value := none }, hasUrlSync := none })]

/-- Concrete filter store for the C7 witness. -/
def c7FStore : Filters Nat :=
  [("x", { value := some 5, category := none })]

/-- Witness for C7 at concrete stores and id lists. -/
theorem C7_removeBulk_conf_witness :
    (jsKeys c7SStore).Nodup ∧
    jsSize (removeSearchInstances c7SStore c7SInstances) = 1 ∧
    jsHas (removeFilters c7FStore ["x", "z"]) "x" = false := by
  refine ⟨by decide, ?_, ?_⟩
  · have h := (C7_removeBulk_conf.1 c7SStore c7SInstances (by decide)).2
    rw [h]
    decide
  · have h := ((C7_removeBulk_conf.2 Nat c7FStore ["x", "z"] (by decide)).1) "x"
    rw [h]
    decide

/-- Claim C8: both bulk adds and bulk updates are extensionally identical
(the two filter functions and the two search functions have equal results
on all inputs), and both perform a shallow top level merge keyed by the id:
a supplied entry replaces the prior entry wholesale, and an id absent from
the supplied mapping keeps its prior entry. -/
theorem C8_bulk_merge_conf :
    (∀ (A : Type) (prev filters : Filters A),
       addFilters prev filters = updateFilters prev filters) ∧
    (∀ (prev instances : Search),
       addSearchInstances prev instances = updateSearchInstances prev instances) ∧
    (∀ (A : Type) (prev filters : Filters A), (jsKeys filters).Nodup →
       ∀ k, jsGet (addFilters prev filters) k
         = (jsGet filters k).elim (jsGet prev k) some) ∧
    (∀ (prev instances : Search), (jsKeys instances).Nodup →
       ∀ k, jsGet (addSearchInstances prev instances) k
         = (jsGet instances k).elim (jsGet prev k) some) := by
  refine ⟨fun A p f => rfl, fun p i => rfl, ?_, ?_⟩
  · intro A p f hnd k
    exact jsGet_jsMerge p f hnd k
  · intro p i hnd k
    exact jsGet_jsMerge p i hnd k

/-- Witness for C8 at concrete filter stores: the supplied entry replaces
the prior entry wholesale. -/
theorem C8_bulk_merge_conf_witness :
    (jsKeys ([("a", ({ value := some 2, category := none } : FilterValue Nat))])).Nodup ∧
    jsGet (addFilters [("a", ({ value := some 1, category := some "old" } : FilterValue Nat))]
        [("a", { value := some 2, category := none })]) "a"
      = some { value := some 2, category := none } := by
  refine ⟨by decide, ?_⟩
  have h := C8_bulk_merge_conf.2.2.1 Nat
    [("a", { value := some 1, category := some "old" })]
    [("a", { value := some 2, category := none })] (by decide) "a"
  rw [h]
  rfl

/-- Claim C9: an add followed by a get of the same id returns exactly the
record with the supplied query and the supplied sync flag, whether or not
the id was present before. -/
theorem C9_add_get_roundtrip (s : Search) (id : String) (q : SearchValue)
    (sync : Bool) :
    getSearchInstance (addSearchInstance s id q sync) id
      = some { query := q, hasUrlSync := some sync } := by
  unfold getSearchInstance addSearchInstance
  rw [jsGet_jsSet_self]

/-- Claim C10: getSearchInstances always produces a mapping (its result
type is the mapping type, never the not found sentinel); it is the empty
mapping when none of the requested ids exist, and every key of the result
is one of the requested ids carrying exactly the stored entry. -/
theorem C10_getBulk_conf (s : Search) (ids : List String) :
    ((∀ id, id ∈ ids → jsHas s id = false) → getSearchInstances s ids = []) ∧
    (∀ k, k ∈ jsKeys (getSearchInstances s ids) →
       k ∈ ids ∧ jsGet (getSearchInstances s ids) k = jsGet s k) := by
  constructor
  · intro h
    unfold getSearchInstances
    exact foldl_getStep_of_absent s _
      (by intro acc id; cases h2 : getSearchInstance s id <;> simp [h2])
      ids [] h
  · intro k hk
    have hhas : jsHas (getSearchInstances s ids) k = true :=
      (jsHas_iff_mem_jsKeys _ k).mpr hk
    obtain ⟨v, hv⟩ : ∃ v, jsGet (getSearchInstances s ids) k = some v := by
      cases hg : jsGet (getSearchInstances s ids) k with
      | none =>
          rw [jsHas, hg] at hhas
          simp at hhas
      | some v => exact ⟨v, rfl⟩
    have hv2 : jsGet (ids.foldl
        (fun acc currId =>
          match getSearchInstance s currId with
          | some inst => jsSet acc currId inst
          | none => acc) []) k = some v := hv
    have h2 := foldl_getStep_get s _
      (by intro acc id; cases h2 : getSearchInstance s id <;> simp [h2])
      ids [] k v hv2
    rcases h2 with hemp | ⟨hmem, hget⟩
    · simp [jsGet] at hemp
    · exact ⟨hmem, by rw [hv, hget]⟩

/-- Concrete store for the C10 witness. -/
def c10Store : Search :=
  [("a", { query := { value := some "x" }, hasUrlSync := some true })]

/-- Witness for C10: requesting only a missing id yields the empty mapping,
and a requested present id appears with the stored entry. -/
theorem C10_getBulk_conf_witness :
    getSearchInstances c10Store ["b"] = [] ∧
    ("a" ∈ ["a"] ∧ jsGet (getSearchInstances c10Store ["a"]) "a" = jsGet c10Store "a") :=
  ⟨(C10_getBulk_conf c10Store ["b"]).1 (by decide),
   (C10_getBulk_conf c10Store ["a"]).2 "a" (by decide)⟩

end ReactSearch
